import Mathlib

/-!
Shallow embedding of the request layer of `filerobot-uploader`
(`src/projects/react-plugin/services/api.service.js`), together with theorems
checking the specification's claims about it.

JavaScript values are modelled by the inductive type `JSVal`; objects are
association lists in insertion order, member access on a non-object yields
`undefined` (the embedding does not model the TypeError thrown by member
access on `null`/`undefined`, which no claim exercises on its success paths).
-/

namespace Filerobot

/-- Model of a JavaScript value as it appears in the request layer:
`undefined`, `null`, booleans, (integer) numbers, strings, arrays and
plain objects given as key/value lists in insertion order. -/
inductive JSVal where
  | undef : JSVal
  | null : JSVal
  | bool : Bool → JSVal
  | num : Int → JSVal
  | str : String → JSVal
  | arr : List JSVal → JSVal
  | obj : List (String × JSVal) → JSVal

/-- JavaScript truthiness (`if (v)`): `undefined`, `null`, `false`, `0` and
`""` are falsy; every array and object is truthy. -/
def truthy : JSVal → Bool
  | .undef => false
  | .null => false
  | .bool b => b
  | .num n => n != 0
  | .str s => s != ""
  | .arr _ => true
  | .obj _ => true

mutual

/-- JavaScript string coercion as used by template literals and `+` with a
string operand: `String(v)`. Arrays stringify to their elements joined by
commas, with `null`/`undefined` elements becoming empty. -/
def toStr : JSVal → String
  | .undef => "undefined"
  | .null => "null"
  | .bool true => "true"
  | .bool false => "false"
  | .num n => toString n
  | .str s => s
  | .obj _ => "[object Object]"
  | .arr xs => toStrList xs

/-- Elements of an array joined by commas (`Array.prototype.toString`). -/
def toStrList : List JSVal → String
  | [] => ""
  | [v] => toStrElem v
  | v :: vs => toStrElem v ++ "," ++ toStrList vs

/-- A single array element under `Array.prototype.join`: `null` and
`undefined` become the empty string, everything else its string coercion. -/
def toStrElem : JSVal → String
  | .undef => ""
  | .null => ""
  | .bool true => "true"
  | .bool false => "false"
  | .num n => toString n
  | .str s => s
  | .obj _ => "[object Object]"
  | .arr xs => toStrList xs

end

/-- JavaScript strict equality `===` restricted to the values the request
layer compares: primitives compare by value; a comparison involving an array
or object is reference equality, which the embedding conservatively renders
as `false` (the source only ever compares against primitive constants). -/
def seq : JSVal → JSVal → Bool
  | .undef, .undef => true
  | .null, .null => true
  | .bool a, .bool b => a == b
  | .num a, .num b => a == b
  | .str a, .str b => a == b
  | _, _ => false

/-- Member access `v[k]` / `v.k`: a lookup in an object's fields (first
binding wins; objects built by the embedding have unique keys), `undefined`
on anything else. -/
def jsGet : JSVal → String → JSVal
  | .obj fields, k =>
      match fields.lookup k with
      | some v => v
      | none => JSVal.undef
  | _, _ => JSVal.undef

/-- ES default values in destructuring and parameter lists: the default is
used exactly when the supplied value is `undefined`. -/
def withDefault (v d : JSVal) : JSVal :=
  match v with
  | .undef => d
  | _ => v

/-- Lookup in a field list with `undefined` for a missing key, i.e. member
access on the object those fields represent. -/
def lookupD (fields : List (String × JSVal)) (k : String) : JSVal :=
  match fields.lookup k with
  | some v => v
  | none => JSVal.undef

/-- `v === null` as a boolean (the query-string filter compares with `!==`). -/
def isNull : JSVal → Bool
  | .null => true
  | _ => false

/-- Whether `v.join` is defined, i.e. `v` is an array (`join` lives on the
`Array` prototype; no other value the layer handles carries it). -/
def hasJoin : JSVal → Bool
  | .arr _ => true
  | _ => false

/-- `Array.prototype.join(sep)` on a list of strings: elements separated by
`sep`, empty string for the empty array. -/
def joinStrings (sep : String) : List String → String
  | [] => ""
  | [x] => x
  | x :: xs => x ++ sep ++ joinStrings sep xs

/-- `Array.prototype.join(sep)` on arbitrary elements (`null` and
`undefined` become empty). -/
def joinSep (sep : String) (xs : List JSVal) : String :=
  joinStrings sep (xs.map toStrElem)

/-- Modelled from the spec: `DUPLICATE_CODE` is imported from `../config`,
which is not under `src/`; the spec describes it only as a server-defined
sentinel value of `upload.state` marking duplicated content. Its concrete
value is not given, so the model fixes an arbitrary primitive distinct from
`REPLACING_DATA_CODE`. -/
def DUPLICATE_CODE : JSVal := JSVal.str "duplicate"

/-- Modelled from the spec: `REPLACING_DATA_CODE` is imported from
`../config` (not under `src/`); a server-defined sentinel value of
`upload.state` marking replaced content. Arbitrary primitive, distinct from
`DUPLICATE_CODE`. -/
def REPLACING_DATA_CODE : JSVal := JSVal.str "replacing_data"

/-- Modelled from the spec: `GALLERY_IMAGES_LIMIT` is imported from
`../config` (not under `src/`); the spec calls it a fixed page-size limit.
Its concrete value is not given; no theorem depends on it. -/
def GALLERY_IMAGES_LIMIT : JSVal := JSVal.num 100

/-! ### uploadFiles: query-string construction

`uploadParams = { ...uploadParams, ...{ dir: dir || uploadParams.dir } }`
followed by `Object.keys(...).filter(...).map(...).join('&')` and the
conditional `url += '?' + paramsStr`. -/

/-- Object spread update `{ ...fields, k: v }`: if `k` is already a key its
value is replaced in place (insertion order kept), otherwise the entry is
appended. -/
def setKey (fields : List (String × JSVal)) (k : String) (v : JSVal) :
    List (String × JSVal) :=
  if fields.any (fun p => p.1 == k) then
    fields.map (fun p => if p.1 == k then (k, v) else p)
  else fields ++ [(k, v)]

/-- The rebinding `uploadParams = { ...uploadParams, ...{ dir: dir || uploadParams.dir } }`. -/
def mergedUploadParams (uploadParams : List (String × JSVal)) (dir : JSVal) :
    List (String × JSVal) :=
  setKey uploadParams "dir" (if truthy dir then dir else lookupD uploadParams "dir")

/-- `Object.keys(uploadParams).filter(p => uploadParams[p] !== null)
.map(p => p + '=' + uploadParams[p]).join('&')`. -/
def paramsStr (uploadParams : List (String × JSVal)) : String :=
  joinStrings "&"
    (((uploadParams.map Prod.fst).filter
        (fun paramName => !isNull (lookupD uploadParams paramName))).map
      (fun paramName => paramName ++ "=" ++ toStr (lookupD uploadParams paramName)))

/-- `let url = (uploadPath || '')` with `uploadPath` destructured with
default `''`, coerced to a string (as the later `+=` would). -/
def uploadBasePath (uploadPath : JSVal) : String :=
  let p := withDefault uploadPath (JSVal.str "")
  toStr (if truthy p then p else JSVal.str "")

/-- The URL sent by `uploadFiles`: the base path with `?` and the parameter
string appended when the latter is non-empty (`if (paramsStr) url += ...`). -/
def uploadUrl (uploadPath : JSVal) (uploadParams : List (String × JSVal))
    (dir : JSVal) : String :=
  let url := uploadBasePath uploadPath
  let q := paramsStr (mergedUploadParams uploadParams dir)
  if q != "" then url ++ "?" ++ q else url

/-! ### uploadFiles: response dispatch (the `then` handler) -/

/-- Outcome of the `then` handler of `uploadFiles`: `resolve(v)`, a thrown
`Error` (caught by the `catch` handler), or a direct `reject(response)`
(which bypasses the `catch` handler). -/
inductive UploadOutcome where
  | resolved : JSVal → UploadOutcome
  | thrown : String → UploadOutcome
  | rejectedRaw : JSVal → UploadOutcome

/-- `const { status = 'success' } = response`. -/
def statusOf (response : JSVal) : JSVal :=
  withDefault (jsGet response "status") (JSVal.str "success")

/-- `const { files = [] } = response`. -/
def filesOf (response : JSVal) : JSVal :=
  withDefault (jsGet response "files") (JSVal.arr [])

/-- `const { upload = {} } = response`. -/
def uploadOf (response : JSVal) : JSVal :=
  withDefault (jsGet response "upload") (JSVal.obj [])

/-- `upload.state === DUPLICATE_CODE`. -/
def isDuplicateOf (response : JSVal) : Bool :=
  seq (jsGet (uploadOf response) "state") DUPLICATE_CODE

/-- `upload.state === REPLACING_DATA_CODE`. -/
def isReplacingDataOf (response : JSVal) : Bool :=
  seq (jsGet (uploadOf response) "state") REPLACING_DATA_CODE

/-- The `then` handler of `uploadFiles`: branch on
`status === 'success' && file`, then `status === 'success' && files`, then
`status === 'error'` (throwing `Error(response.msg + ' ' + response.hint)`),
else `reject(response)`. -/
def uploadDispatch (response : JSVal) : UploadOutcome :=
  let file := jsGet response "file"
  if seq (statusOf response) (JSVal.str "success") && truthy file then
    UploadOutcome.resolved (JSVal.arr [JSVal.arr [file],
      JSVal.bool (isDuplicateOf response), JSVal.bool (isReplacingDataOf response)])
  else if seq (statusOf response) (JSVal.str "success") && truthy (filesOf response) then
    UploadOutcome.resolved (JSVal.arr [filesOf response,
      JSVal.bool (isDuplicateOf response), JSVal.bool (isReplacingDataOf response)])
  else if seq (statusOf response) (JSVal.str "error") then
    UploadOutcome.thrown (toStr (jsGet response "msg") ++ " " ++ toStr (jsGet response "hint"))
  else UploadOutcome.rejectedRaw response

/-! ### uploadFiles: catch handler and overall settlement -/

/-- A thrown `new Error(m)` as the value observed by the `catch` handler:
its own `message` property is `m`; it has no `response` or `msg` property. -/
def mkError (m : String) : JSVal := JSVal.obj [("message", JSVal.str m)]

/-- `const data = (error.response && error.response.data) || {}`. -/
def respDataOf (error : JSVal) : JSVal :=
  let r := jsGet error "response"
  let d := if truthy r then jsGet r "data" else r
  if truthy d then d else JSVal.obj []

/-- `const code = data.code || ''`. -/
def codeOf (error : JSVal) : JSVal :=
  let c := jsGet (respDataOf error) "code"
  if truthy c then c else JSVal.str ""

/-- `const msg = data.msg && (data.msg.join ? data.msg.join(', ') : data.msg)`. -/
def msgOf (error : JSVal) : JSVal :=
  let m := jsGet (respDataOf error) "msg"
  if truthy m then
    if hasJoin m then
      match m with
      | .arr xs => JSVal.str (joinSep ", " xs)
      | v => v
    else m
  else m

/-- The second argument of `showAlert`:
`((code || msg) ? code + ': ' + msg : '') || error.msg || error.message`. -/
def alertMessage (error : JSVal) : JSVal :=
  let code := codeOf error
  let msg := msgOf error
  let formatted :=
    if truthy code || truthy msg then JSVal.str (toStr code ++ ": " ++ toStr msg)
    else JSVal.str ""
  if truthy formatted then formatted
  else if truthy (jsGet error "msg") then jsGet error "msg"
  else jsGet error "message"

/-- Whether a dispatch outcome is the direct `reject(response)` branch. -/
def isRejectedRaw : UploadOutcome → Bool
  | .rejectedRaw _ => true
  | _ => false

/-- Outcome of the transport call made by `uploadFiles`: the parsed body on
fulfilment, or the error value on rejection. -/
inductive SendOutcome where
  | ok : JSVal → SendOutcome
  | fail : JSVal → SendOutcome

/-- Settlement of the promise returned by `uploadFiles`. -/
inductive PromiseOutcome where
  | resolved : JSVal → PromiseOutcome
  | rejected : JSVal → PromiseOutcome

/-- One `showAlert('', message, 'error')` invocation, as its argument triple. -/
def alertCall (error : JSVal) : JSVal × JSVal × JSVal :=
  (JSVal.str "", alertMessage error, JSVal.str "error")

/-- How the promise returned by `uploadFiles` settles for a given transport
outcome, paired with the list of `showAlert` invocations performed: the
`then` handler runs on fulfilment; a throw inside it, or a transport
rejection, reaches the `catch` handler, which alerts once and re-rejects the
original error; `reject(response)` settles without alerting. -/
def uploadSettle (r : SendOutcome) : PromiseOutcome × List (JSVal × JSVal × JSVal) :=
  match r with
  | .ok response =>
      match uploadDispatch response with
      | .resolved v => (.resolved v, [])
      | .rejectedRaw v => (.rejected v, [])
      | .thrown m => (.rejected (mkError m), [alertCall (mkError m)])
  | .fail error => (.rejected error, [alertCall error])

/-! ### URL builder and the list / search / settings requests -/

/-- `getBaseUrl(container, platform = 'filerobot')`. -/
def getBaseUrl (container : JSVal) (platform : JSVal) : String :=
  let p := withDefault platform (JSVal.str "filerobot")
  if seq p (JSVal.str "filerobot") then
    "https://api.filerobot.com/" ++ toStr container ++ "/v3/"
  else
    "https://" ++ toStr container ++ ".api.airstore.io/v1/"

/-- The URL built by `getListFiles` from its destructured props
(`dir = ''`, `container = ''`, no default for `offset`):
`[baseUrl, 'list?', dir ? 'dir='+dir : '', '&offset='+offset,
'&limit='+GALLERY_IMAGES_LIMIT].join('')`. -/
def getListFilesUrl (dir container platform offset : JSVal) : String :=
  let d := withDefault dir (JSVal.str "")
  let c := withDefault container (JSVal.str "")
  let baseUrl := getBaseUrl c platform
  let apiPath := "list?"
  let directoryPath := if truthy d then "dir=" ++ toStr d else ""
  let offsetQuery := "&offset=" ++ toStr offset
  let limit := "&limit=" ++ toStr GALLERY_IMAGES_LIMIT
  String.join [baseUrl, apiPath, directoryPath, offsetQuery, limit]

/-- The `then` handler of `getListFiles`:
`[response.files, response.directories,
response.current_directory && response.current_directory.files_count]`. -/
def getListFilesThen (response : JSVal) : JSVal :=
  let cd := jsGet response "current_directory"
  JSVal.arr [jsGet response "files", jsGet response "directories",
    if truthy cd then jsGet cd "files_count" else cd]

/-- The URL built by `searchFiles` from its destructured props
(`query = ''`, `container = ''`, `offset = 0`):
`[baseUrl, 'search?', 'q='+query, '&offset='+offset].join('')`. -/
def searchFilesUrl (query container platform offset : JSVal) : String :=
  let q := withDefault query (JSVal.str "")
  let c := withDefault container (JSVal.str "")
  let off := withDefault offset (JSVal.num 0)
  let baseUrl := getBaseUrl c platform
  let apiPath := "search?"
  let searchQuery := "q=" ++ toStr q
  let offsetQuery := "&offset=" ++ toStr off
  String.join [baseUrl, apiPath, searchQuery, offsetQuery]

/-- The `then` handler of `getTokenSettings`:
`({ settings = {} } = {}) => ({ productsEnabled: settings._products_enabled === 1 })`. -/
def getTokenSettingsThen (response : JSVal) : JSVal :=
  let settings := withDefault (jsGet response "settings") (JSVal.obj [])
  JSVal.obj [("productsEnabled",
    JSVal.bool (seq (jsGet settings "_products_enabled") (JSVal.num 1)))]

/-! ### Specification-side definitions used by refinement claims -/

/-- The spec's description of the upload query string: the entries of the
parameter mapping whose value is not `null`, rendered as `key=value` with
no URL-encoding and joined with `&`. -/
def specQueryOfParams (fields : List (String × JSVal)) : String :=
  joinStrings "&"
    (fields.filterMap (fun p =>
      if isNull p.2 then none else some (p.1 ++ "=" ++ toStr p.2)))

/-- The alert message as the spec describes it: `"{code}: {msg}"` when the
error payload carries a (truthy) `code` or `msg` (a list `msg` joined with
`', '`), otherwise the raw error's own `msg` or `message`. -/
def claimAlertMessage (error : JSVal) : JSVal :=
  if truthy (codeOf error) || truthy (msgOf error) then
    JSVal.str (toStr (codeOf error) ++ ": " ++ toStr (msgOf error))
  else if truthy (jsGet error "msg") then jsGet error "msg"
  else jsGet error "message"

/-! ### A heap model for the frame claim

The only statement in `uploadFiles` that could affect the caller's
configuration is the rebinding of `uploadParams` via object spread. The
heap model makes the object identity explicit: a store of objects addressed
by index, where spread allocates a fresh object and the query string is
computed from the fresh copy, so the caller's object is untouched. -/

/-- A heap of JavaScript objects; an address is an index into the list. -/
abbrev Store := List (List (String × JSVal))

/-- The object stored at address `a` (the empty object for a dangling
address, which well-formed runs never produce). -/
def Store.read (σ : Store) (a : Nat) : List (String × JSVal) :=
  List.getD σ a []

/-- Allocation of a fresh object: append it to the store, returning the new
store and the fresh address. -/
def Store.alloc (σ : Store) (fields : List (String × JSVal)) : Store × Nat :=
  (List.append σ [fields], List.length σ)

/-- The `uploadParams` handling of `uploadFiles` against the heap: read the
caller's object at address `a`, build the merged object by spread (a fresh
allocation), and compute the parameter string from the merged object.
Returns the final store, the address the local `uploadParams` now holds,
and the parameter string. -/
def uploadParamsStep (σ : Store) (a : Nat) (dir : JSVal) : Store × Nat × String :=
  let params := σ.read a
  let merged := mergedUploadParams params dir
  let alloc := σ.alloc merged
  (alloc.1, alloc.2, paramsStr merged)

/-! ## Helper lemmas -/

theorem seq_str_iff (v : JSVal) (s : String) :
    seq v (JSVal.str s) = true ↔ v = JSVal.str s := by
  cases v <;> simp [seq]

theorem seq_num_iff (v : JSVal) (n : Int) :
    seq v (JSVal.num n) = true ↔ v = JSVal.num n := by
  cases v <;> simp [seq]

theorem toStr_str (s : String) : toStr (JSVal.str s) = s := rfl

theorem toStr_undef : toStr JSVal.undef = "undefined" := rfl

theorem jsGet_withDefault_emptyObj (v : JSVal) (k : String) :
    jsGet (withDefault v (JSVal.obj [])) k = jsGet v k := by
  cases v <;> simp [withDefault, jsGet, List.lookup]

/-! ## Claims -/

/-- C7: for every server response, `getTokenSettings` resolves with
`{productsEnabled: b}` where `b` is `true` exactly when the response's
`settings._products_enabled` is the integer `1`; any other value — `0`, a
missing `settings` object, or a non-integer representation — yields
`false`. -/
theorem c7_getTokenSettings_productsEnabled (response : JSVal) :
    ∃ b : Bool,
      getTokenSettingsThen response = JSVal.obj [("productsEnabled", JSVal.bool b)] ∧
      (b = true ↔ jsGet (jsGet response "settings") "_products_enabled" = JSVal.num 1) := by
  refine ⟨_, rfl, ?_⟩
  rw [jsGet_withDefault_emptyObj]
  exact seq_num_iff _ 1

/-- C6: for every call to `getListFiles` with a non-empty `dir` and any
`offset`, the request URL is the base URL followed by `list?`, `dir=`, the
directory, `&offset=`, the offset, and `&limit=` with
`GALLERY_IMAGES_LIMIT`; and the resolved value is the triple
`[response.files, response.directories,
response.current_directory.files_count]` (stated for responses whose
`current_directory` is present). -/
theorem c6_getListFiles_url_and_result (d : String) (hd : d ≠ "")
    (container platform offset : JSVal) :
    getListFilesUrl (JSVal.str d) container platform offset =
      getBaseUrl (withDefault container (JSVal.str "")) platform ++ "list?" ++ "dir=" ++ d ++
        "&offset=" ++ toStr offset ++ "&limit=" ++ toStr GALLERY_IMAGES_LIMIT ∧
    ∀ response : JSVal, truthy (jsGet response "current_directory") = true →
      getListFilesThen response =
        JSVal.arr [jsGet response "files", jsGet response "directories",
          jsGet (jsGet response "current_directory") "files_count"] := by
  constructor
  · simp [getListFilesUrl, withDefault, truthy, String.join, toStr_str, hd,
      String.append_assoc]
    congr 1
  · intro response h
    simp [getListFilesThen, h]

/-- Witness for C6 at `dir = "photos"`, `offset = 0`, a `filerobot`
container `tenant`, and a response with seven files in the current
directory. -/
theorem c6_witness :
    getListFilesUrl (JSVal.str "photos") (JSVal.str "tenant") JSVal.undef (JSVal.num 0) =
      "https://api.filerobot.com/tenant/v3/list?dir=photos&offset=0&limit=100" ∧
    getListFilesThen (JSVal.obj [("files", JSVal.arr []), ("directories", JSVal.arr []),
        ("current_directory", JSVal.obj [("files_count", JSVal.num 7)])]) =
      JSVal.arr [JSVal.arr [], JSVal.arr [], JSVal.num 7] := by
  have h := c6_getListFiles_url_and_result "photos" (by decide)
    (JSVal.str "tenant") JSVal.undef (JSVal.num 0)
  exact ⟨by rw [h.1]; rfl, by rw [h.2 _ (by rfl)]; rfl⟩

/-- C10: `searchFiles` defaults an omitted `offset` to `0`, so its URL
contains `&offset=0`; `getListFiles` applies no default, so an omitted
`offset` stringifies to `undefined` and its URL contains the literal
substring `offset=undefined`. -/
theorem c10_offset_default_divergence (query dir container platform : JSVal) :
    (∃ pre : String,
      searchFilesUrl query container platform JSVal.undef = pre ++ "&offset=0") ∧
    (∃ pre post : String,
      getListFilesUrl dir container platform JSVal.undef =
        pre ++ "offset=undefined" ++ post) := by
  constructor
  · refine ⟨getBaseUrl (withDefault container (JSVal.str "")) platform ++ "search?" ++
      "q=" ++ toStr (withDefault query (JSVal.str "")), ?_⟩
    simp [searchFilesUrl, String.join, String.append_assoc]
    rfl
  · refine ⟨getBaseUrl (withDefault container (JSVal.str "")) platform ++ "list?" ++
      (if truthy (withDefault dir (JSVal.str "")) then
        "dir=" ++ toStr (withDefault dir (JSVal.str "")) else "") ++ "&", ?_, ?_⟩
    · exact "&limit=" ++ toStr GALLERY_IMAGES_LIMIT
    · simp [getListFilesUrl, String.join, String.append_assoc, toStr_undef]

/-! ## Query-string lemmas (claims C3 and C9) -/

theorem lookupD_cons_self (k : String) (v : JSVal) (rest : List (String × JSVal)) :
    lookupD ((k, v) :: rest) k = v := by
  simp [lookupD, List.lookup]

theorem lookupD_cons_ne (k k₀ : String) (v₀ : JSVal) (rest : List (String × JSVal))
    (h : k ≠ k₀) : lookupD ((k₀, v₀) :: rest) k = lookupD rest k := by
  have hb : (k == k₀) = false := beq_eq_false_iff_ne.mpr h
  simp [lookupD, List.lookup, hb]

/-- On a mapping with distinct keys (every JavaScript object), iterating
`Object.keys` and looking each key up again visits exactly the entries in
order. -/
theorem tokens_eq (fields : List (String × JSVal))
    (h : (fields.map Prod.fst).Nodup) :
    ((fields.map Prod.fst).filter
        (fun paramName => !isNull (lookupD fields paramName))).map
      (fun paramName => paramName ++ "=" ++ toStr (lookupD fields paramName)) =
    fields.filterMap (fun p =>
      if isNull p.2 then none else some (p.1 ++ "=" ++ toStr p.2)) := by
  induction fields with
  | nil => rfl
  | cons p rest ih =>
    obtain ⟨k₀, v₀⟩ := p
    simp only [List.map_cons, List.nodup_cons] at h
    have hl : ∀ k ∈ rest.map Prod.fst,
        lookupD ((k₀, v₀) :: rest) k = lookupD rest k := fun k hk =>
      lookupD_cons_ne k k₀ v₀ rest (fun he => h.1 (he ▸ hk))
    have hfilter : (rest.map Prod.fst).filter
          (fun paramName => !isNull (lookupD ((k₀, v₀) :: rest) paramName)) =
        (rest.map Prod.fst).filter
          (fun paramName => !isNull (lookupD rest paramName)) :=
      List.filter_congr (fun k hk => by rw [hl k hk])
    have hmaps : ((rest.map Prod.fst).filter
          (fun paramName => !isNull (lookupD rest paramName))).map
            (fun paramName => paramName ++ "=" ++ toStr (lookupD ((k₀, v₀) :: rest) paramName)) =
        ((rest.map Prod.fst).filter
          (fun paramName => !isNull (lookupD rest paramName))).map
            (fun paramName => paramName ++ "=" ++ toStr (lookupD rest paramName)) :=
      List.map_congr_left (fun k hk => by rw [hl k (List.mem_of_mem_filter hk)])
    simp only [List.map_cons, List.filter_cons, List.filterMap_cons, lookupD_cons_self,
      hfilter, hmaps, ih h.2]
    by_cases hv : isNull v₀
    · simp [hv, lookupD_cons_self]
      rw [hmaps]
      exact ih h.2
    · simp [hv, lookupD_cons_self]
      rw [hmaps]
      exact ih h.2

/-- `joinStrings` over a list ending in `x` ends in `x`. -/
theorem joinStrings_append_singleton (sep : String) (l : List String) (x : String) :
    ∃ a : String, joinStrings sep (l ++ [x]) = a ++ x := by
  induction l with
  | nil => exact ⟨"", by simp [joinStrings, String.empty_append]⟩
  | cons y ys ih =>
    cases ys with
    | nil => exact ⟨y ++ sep, by simp [joinStrings, String.append_assoc]⟩
    | cons z zs =>
      obtain ⟨a, ha⟩ := ih
      refine ⟨y ++ sep ++ a, ?_⟩
      have hstep : joinStrings sep (y :: z :: (zs ++ [x])) =
          y ++ sep ++ joinStrings sep (z :: (zs ++ [x])) := rfl
      simp only [List.cons_append] at ha ⊢
      rw [hstep, ha, String.append_assoc (y ++ sep) a x]

/-- The keys of `setKey fields k v` are the keys of `fields` when `k` is
already present, and those keys with `k` appended otherwise. -/
theorem keys_setKey (fields : List (String × JSVal)) (k : String) (v : JSVal) :
    (setKey fields k v).map Prod.fst =
      if fields.any (fun p => p.1 == k) then fields.map Prod.fst
      else fields.map Prod.fst ++ [k] := by
  rw [setKey]
  by_cases h : fields.any (fun p => p.1 == k)
  · rw [if_pos h, if_pos h, List.map_map]
    refine List.map_congr_left (fun p _ => ?_)
    by_cases hp : (p.1 == k) = true
    · simp only [Function.comp_apply, hp, if_pos rfl]
      exact (beq_iff_eq.mp hp).symm
    · simp only [Function.comp_apply, if_neg hp]
  · rw [if_neg h, if_neg h, List.map_append]
    rfl

theorem lookupD_eq_undef_of_not_mem (fields : List (String × JSVal)) (k : String)
    (h : ∀ p ∈ fields, p.1 ≠ k) : lookupD fields k = JSVal.undef := by
  induction fields with
  | nil => rfl
  | cons p rest ih =>
    have hne : k ≠ p.1 := fun he => h p (List.mem_cons_self p rest) he.symm
    rw [lookupD_cons_ne k p.1 p.2 rest hne]
    exact ih (fun q hq => h q (List.mem_cons_of_mem p hq))

theorem lookupD_append_of_not_mem (fields₁ fields₂ : List (String × JSVal)) (k : String)
    (h : ∀ p ∈ fields₁, p.1 ≠ k) :
    lookupD (fields₁ ++ fields₂) k = lookupD fields₂ k := by
  induction fields₁ with
  | nil => rfl
  | cons p rest ih =>
    have hne : k ≠ p.1 := fun he => h p (List.mem_cons_self p rest) he.symm
    rw [List.cons_append, lookupD_cons_ne k p.1 p.2 _ hne]
    exact ih (fun q hq => h q (List.mem_cons_of_mem p hq))

theorem lookupD_map_update (fields : List (String × JSVal)) (k : String) (v : JSVal)
    (h : fields.any (fun p => p.1 == k) = true) :
    lookupD (fields.map (fun p => if p.1 == k then (k, v) else p)) k = v := by
  induction fields with
  | nil => simp at h
  | cons p rest ih =>
    rw [List.map_cons]
    by_cases hp : (p.1 == k) = true
    · rw [if_pos hp]
      exact lookupD_cons_self k v _
    · rw [if_neg hp]
      have hne : k ≠ p.1 := fun he => hp (beq_iff_eq.mpr he.symm)
      rw [lookupD_cons_ne k p.1 p.2 _ hne]
      apply ih
      simpa [List.any_cons, hp] using h

/-- After a spread update `{ ...fields, k: v }`, looking `k` up yields `v`. -/
theorem lookupD_setKey (fields : List (String × JSVal)) (k : String) (v : JSVal) :
    lookupD (setKey fields k v) k = v := by
  rw [setKey]
  by_cases h : fields.any (fun p => p.1 == k) = true
  · rw [if_pos h]
    exact lookupD_map_update fields k v h
  · rw [if_neg h]
    have hmem : ∀ p ∈ fields, p.1 ≠ k := by
      intro p hp he
      exact h (List.any_eq_true.mpr ⟨p, hp, beq_iff_eq.mpr he⟩)
    rw [lookupD_append_of_not_mem fields [(k, v)] k hmem]
    exact lookupD_cons_self k v []

/-- Merging the directory override preserves distinctness of the keys. -/
theorem nodup_keys_merged (uploadParams : List (String × JSVal)) (dir : JSVal)
    (h : (uploadParams.map Prod.fst).Nodup) :
    ((mergedUploadParams uploadParams dir).map Prod.fst).Nodup := by
  rw [mergedUploadParams, keys_setKey]
  by_cases hmem : uploadParams.any (fun p => p.1 == "dir")
  · simpa [hmem]
  · rw [if_neg hmem]
    refine List.Nodup.append h (List.nodup_singleton "dir") ?_
    intro k hk hk'
    rw [List.mem_singleton] at hk'
    subst hk'
    rcases List.mem_map.mp hk with ⟨p, hp, hfst⟩
    exact hmem (List.any_eq_true.mpr ⟨p, hp, by simp [hfst]⟩)

/-- C3: for every `uploadParams` mapping (with distinct keys, as every
JavaScript object has), the query string built by `uploadFiles` is exactly
the entries of the merged mapping whose value is not `null`, rendered as
`key=value` with no URL-encoding and joined with `&`; it is appended to the
upload path after `?` exactly when non-empty; in particular
`uploadParams = {dir: null, tag: "x"}` with no `dir` argument yields the
query string `tag=x`. -/
theorem c3_query_string_omits_null (uploadParams : List (String × JSVal))
    (dir uploadPath : JSVal) (hnodup : (uploadParams.map Prod.fst).Nodup) :
    paramsStr (mergedUploadParams uploadParams dir) =
      specQueryOfParams (mergedUploadParams uploadParams dir) ∧
    (paramsStr (mergedUploadParams uploadParams dir) ≠ "" →
      uploadUrl uploadPath uploadParams dir =
        uploadBasePath uploadPath ++ "?" ++ paramsStr (mergedUploadParams uploadParams dir)) ∧
    (paramsStr (mergedUploadParams uploadParams dir) = "" →
      uploadUrl uploadPath uploadParams dir = uploadBasePath uploadPath) ∧
    paramsStr (mergedUploadParams [("dir", JSVal.null), ("tag", JSVal.str "x")] JSVal.undef) =
      "tag=x" := by
  refine ⟨?_, ?_, ?_, rfl⟩
  · rw [paramsStr, specQueryOfParams,
      tokens_eq _ (nodup_keys_merged uploadParams dir hnodup)]
  · intro hq
    simp [uploadUrl, hq]
  · intro hq
    simp [uploadUrl, hq]

/-- Witness for C3: `uploadParams = {dir: null, tag: "x"}`, no directory
argument, upload path `https://up`. -/
theorem c3_witness :
    uploadUrl (JSVal.str "https://up") [("dir", JSVal.null), ("tag", JSVal.str "x")]
      JSVal.undef = "https://up?tag=x" := by
  have h := c3_query_string_omits_null [("dir", JSVal.null), ("tag", JSVal.str "x")]
    JSVal.undef (JSVal.str "https://up") (by decide)
  rw [h.2.1 (by rw [h.2.2.2]; decide)]
  rw [h.2.2.2]
  rfl

/-- C9: when the `dir` argument is falsy and `uploadParams` has no `dir`
key, the merge inserts a `dir` entry with value `undefined`; that entry
passes the not-`null` filter, so the built query string ends with the
literal pair `dir=undefined`. Only an explicit `null` survives the merge as
`null` (and is then omitted by the filter, by C3). -/
theorem c9_missing_dir_becomes_undefined (uploadParams : List (String × JSVal))
    (dir : JSVal) (hfalsy : truthy dir = false) :
    ((∀ p ∈ uploadParams, p.1 ≠ "dir") →
      mergedUploadParams uploadParams dir = uploadParams ++ [("dir", JSVal.undef)] ∧
      ((uploadParams.map Prod.fst).Nodup →
        ∃ a : String,
          paramsStr (mergedUploadParams uploadParams dir) = a ++ "dir=undefined")) ∧
    (lookupD uploadParams "dir" = JSVal.null →
      lookupD (mergedUploadParams uploadParams dir) "dir" = JSVal.null) := by
  constructor
  · intro hnokey
    have hany : uploadParams.any (fun p => p.1 == "dir") = false := by
      rw [List.any_eq_false]
      intro p hp
      simp [hnokey p hp]
    have hval : (if truthy dir = true then dir else lookupD uploadParams "dir") =
        JSVal.undef := by
      rw [if_neg (by simp [hfalsy]), lookupD_eq_undef_of_not_mem uploadParams "dir" hnokey]
    have hmerged : mergedUploadParams uploadParams dir =
        uploadParams ++ [("dir", JSVal.undef)] := by
      rw [mergedUploadParams, hval, setKey, if_neg (by simp [hany])]
    refine ⟨hmerged, fun hnodup => ?_⟩
    have hkeys : ((uploadParams ++ [("dir", JSVal.undef)]).map Prod.fst).Nodup := by
      rw [List.map_append]
      refine List.Nodup.append hnodup (List.nodup_singleton "dir") ?_
      intro k hk hk'
      rw [List.map_singleton, List.mem_singleton] at hk'
      subst hk'
      rcases List.mem_map.mp hk with ⟨p, hp, hfst⟩
      exact hnokey p hp hfst
    rw [hmerged, paramsStr, tokens_eq _ hkeys, List.filterMap_append]
    have hlast : List.filterMap (fun p =>
        if isNull p.2 = true then none else some (p.1 ++ "=" ++ toStr p.2))
        [("dir", JSVal.undef)] = ["dir=undefined"] := rfl
    rw [hlast]
    exact joinStrings_append_singleton "&"
      (uploadParams.filterMap (fun p =>
        if isNull p.2 = true then none else some (p.1 ++ "=" ++ toStr p.2))) "dir=undefined"
  · intro hnull
    rw [mergedUploadParams, if_neg (by simp [hfalsy]), hnull, lookupD_setKey]

/-- Witness for C9: `uploadParams = {tag: "x"}` and an omitted `dir`
argument produce the query string `tag=x&dir=undefined`. -/
theorem c9_witness :
    ∃ a : String,
      paramsStr (mergedUploadParams [("tag", JSVal.str "x")] JSVal.undef) =
        a ++ "dir=undefined" :=
  ((c9_missing_dir_becomes_undefined [("tag", JSVal.str "x")] JSVal.undef rfl).1
    (by decide)).2 (by decide)

/-! ## Upload response dispatch (claims C1, C2, C5) -/

/-- C1 as stated is false: in the response `{status: "success", file: null}`
the singular `file` field is present, yet `uploadFiles` resolves with the
(defaulted, empty) `files` list as first component, not with `[file]`. -/
theorem c1_counterexample :
    uploadDispatch (JSVal.obj [("status", JSVal.str "success"), ("file", JSVal.null)]) =
      UploadOutcome.resolved
        (JSVal.arr [JSVal.arr [], JSVal.bool false, JSVal.bool false]) ∧
    JSVal.arr [] ≠ JSVal.arr [JSVal.null] := by
  refine ⟨rfl, fun hc => ?_⟩
  injection hc with h
  exact List.noConfusion h

/-- C1 (amended): for every response with status `"success"`: if `file` is
truthy, `uploadFiles` resolves with `[[file], isDuplicate, isReplacingData]`;
otherwise, if `files` (defaulted to `[]` when absent) is truthy, it resolves
with `[files, isDuplicate, isReplacingData]`; the two flags are the strict
comparisons of `upload.state` against the sentinel codes and are both false
when the `upload` field is absent. -/
theorem c1_amended_success_dispatch (response : JSVal)
    (h : statusOf response = JSVal.str "success") :
    (truthy (jsGet response "file") = true →
      uploadDispatch response = UploadOutcome.resolved
        (JSVal.arr [JSVal.arr [jsGet response "file"],
          JSVal.bool (isDuplicateOf response), JSVal.bool (isReplacingDataOf response)])) ∧
    (truthy (jsGet response "file") = false → truthy (filesOf response) = true →
      uploadDispatch response = UploadOutcome.resolved
        (JSVal.arr [filesOf response,
          JSVal.bool (isDuplicateOf response), JSVal.bool (isReplacingDataOf response)])) ∧
    (jsGet response "upload" = JSVal.undef →
      isDuplicateOf response = false ∧ isReplacingDataOf response = false) := by
  refine ⟨?_, ?_, ?_⟩
  · intro hf
    simp [uploadDispatch, h, seq, hf]
  · intro hf hfs
    simp [uploadDispatch, h, seq, hf, hfs]
  · intro hu
    rw [isDuplicateOf, isReplacingDataOf, uploadOf, hu]
    exact ⟨rfl, rfl⟩

/-- Witness for C1 (amended): the spec's two examples, a singular file
response and a two-file response marked as a duplicate. -/
theorem c1_witness :
    uploadDispatch (JSVal.obj [("status", JSVal.str "success"),
        ("file", JSVal.obj [("id", JSVal.num 1)])]) =
      UploadOutcome.resolved (JSVal.arr [JSVal.arr [JSVal.obj [("id", JSVal.num 1)]],
        JSVal.bool false, JSVal.bool false]) ∧
    uploadDispatch (JSVal.obj [("status", JSVal.str "success"),
        ("files", JSVal.arr [JSVal.obj [("id", JSVal.num 1)], JSVal.obj [("id", JSVal.num 2)]]),
        ("upload", JSVal.obj [("state", DUPLICATE_CODE)])]) =
      UploadOutcome.resolved (JSVal.arr
        [JSVal.arr [JSVal.obj [("id", JSVal.num 1)], JSVal.obj [("id", JSVal.num 2)]],
         JSVal.bool true, JSVal.bool false]) := by
  constructor
  · exact (c1_amended_success_dispatch (JSVal.obj [("status", JSVal.str "success"),
      ("file", JSVal.obj [("id", JSVal.num 1)])]) rfl).1 rfl
  · exact (c1_amended_success_dispatch (JSVal.obj [("status", JSVal.str "success"),
      ("files", JSVal.arr [JSVal.obj [("id", JSVal.num 1)], JSVal.obj [("id", JSVal.num 2)]]),
      ("upload", JSVal.obj [("state", DUPLICATE_CODE)])]) rfl).2.1 rfl rfl

/-- C2: for every response with status `"error"`, `uploadFiles` rejects
with an `Error` whose message is the server's `msg` and `hint` concatenated
(separated by a space), so the message both begins with `msg` and ends with
`hint`. -/
theorem c2_error_rejects_with_msg_and_hint (response : JSVal)
    (h : statusOf response = JSVal.str "error") :
    (uploadSettle (SendOutcome.ok response)).1 =
      PromiseOutcome.rejected (mkError
        (toStr (jsGet response "msg") ++ " " ++ toStr (jsGet response "hint"))) ∧
    (∃ rest : String,
      toStr (jsGet response "msg") ++ " " ++ toStr (jsGet response "hint") =
        toStr (jsGet response "msg") ++ rest) ∧
    (∃ front : String,
      toStr (jsGet response "msg") ++ " " ++ toStr (jsGet response "hint") =
        front ++ toStr (jsGet response "hint")) := by
  have hdisp : uploadDispatch response = UploadOutcome.thrown
      (toStr (jsGet response "msg") ++ " " ++ toStr (jsGet response "hint")) := by
    rw [uploadDispatch, h]
    rfl
  refine ⟨?_, ⟨" " ++ toStr (jsGet response "hint"), String.append_assoc _ _ _⟩,
    ⟨toStr (jsGet response "msg") ++ " ", rfl⟩⟩
  simp [uploadSettle, hdisp]

/-- Witness for C2: the response `{status: "error", msg: "bad",
hint: "retry"}` rejects with an error message `bad retry`. -/
theorem c2_witness :
    (uploadSettle (SendOutcome.ok (JSVal.obj [("status", JSVal.str "error"),
        ("msg", JSVal.str "bad"), ("hint", JSVal.str "retry")]))).1 =
      PromiseOutcome.rejected (mkError "bad retry") := by
  have h := c2_error_rejects_with_msg_and_hint (JSVal.obj [("status", JSVal.str "error"),
    ("msg", JSVal.str "bad"), ("hint", JSVal.str "retry")]) rfl
  rw [h.1]
  rfl

/-- C5 as stated is false: the empty response `{}` has no `status` field and
carries neither `file` nor `files`, yet `uploadFiles` does not reject with
the raw response — `status` defaults to `"success"` and `files` to `[]`
(truthy), so it resolves with `[[], false, false]`. -/
theorem c5_counterexample :
    uploadDispatch (JSVal.obj []) =
      UploadOutcome.resolved
        (JSVal.arr [JSVal.arr [], JSVal.bool false, JSVal.bool false]) ∧
    isRejectedRaw (uploadDispatch (JSVal.obj [])) = false :=
  ⟨rfl, rfl⟩

/-- C5 (amended): `uploadFiles` rejects with the raw response exactly when
the (defaulted) status is neither `"success"` nor `"error"`, or when the
status is `"success"` and both `file` and the (defaulted) `files` are falsy
(e.g. an explicit `files: null`); in particular, a response with no status
field counts as success, a missing `files` defaults to `[]`, and a success
response carrying neither `file` nor `files` resolves with
`[[], isDuplicate, isReplacingData]` instead of rejecting. -/
theorem c5_amended_reject_conditions (response : JSVal) :
    (statusOf response ≠ JSVal.str "success" → statusOf response ≠ JSVal.str "error" →
      uploadDispatch response = UploadOutcome.rejectedRaw response) ∧
    (statusOf response = JSVal.str "success" → truthy (jsGet response "file") = false →
      truthy (filesOf response) = false →
      uploadDispatch response = UploadOutcome.rejectedRaw response) ∧
    (jsGet response "status" = JSVal.undef → jsGet response "file" = JSVal.undef →
      jsGet response "files" = JSVal.undef →
      uploadDispatch response = UploadOutcome.resolved
        (JSVal.arr [JSVal.arr [], JSVal.bool (isDuplicateOf response),
          JSVal.bool (isReplacingDataOf response)])) := by
  refine ⟨?_, ?_, ?_⟩
  · intro h1 h2
    have hs1 : seq (statusOf response) (JSVal.str "success") = false := by
      rw [Bool.eq_false_iff]
      intro hc
      exact h1 ((seq_str_iff _ _).mp hc)
    have hs2 : seq (statusOf response) (JSVal.str "error") = false := by
      rw [Bool.eq_false_iff]
      intro hc
      exact h2 ((seq_str_iff _ _).mp hc)
    simp [uploadDispatch, hs1, hs2]
  · intro h hf hfs
    simp [uploadDispatch, h, seq, hf, hfs]
  · intro hst hf hfs
    rw [uploadDispatch, statusOf, hst, filesOf, hfs, hf]
    rfl

/-- Witness for C5 (amended): an unknown status rejects raw; a success
response with `files: null` rejects raw; the empty response resolves. -/
theorem c5_witness :
    uploadDispatch (JSVal.obj [("status", JSVal.str "partial")]) =
      UploadOutcome.rejectedRaw (JSVal.obj [("status", JSVal.str "partial")]) ∧
    uploadDispatch (JSVal.obj [("status", JSVal.str "success"), ("files", JSVal.null)]) =
      UploadOutcome.rejectedRaw
        (JSVal.obj [("status", JSVal.str "success"), ("files", JSVal.null)]) ∧
    uploadDispatch (JSVal.obj []) =
      UploadOutcome.resolved
        (JSVal.arr [JSVal.arr [], JSVal.bool false, JSVal.bool false]) := by
  refine ⟨(c5_amended_reject_conditions _).1 ?_ ?_,
    (c5_amended_reject_conditions _).2.1 rfl rfl rfl,
    (c5_amended_reject_conditions _).2.2 rfl rfl rfl⟩
  · intro hc
    injection hc with h
    exact absurd h (by decide)
  · intro hc
    injection hc with h
    exact absurd h (by decide)

/-! ## Alerting (claim C4) -/

/-- The `catch` handler computes exactly the message the spec describes:
the `(... ? code + ': ' + msg : '') || error.msg || error.message` chain
collapses to an if-then-else because the formatted string contains `": "`
and is therefore never falsy. -/
theorem alertMessage_eq_claim (error : JSVal) :
    alertMessage error = claimAlertMessage error := by
  simp only [alertMessage, claimAlertMessage]
  by_cases h : (truthy (codeOf error) || truthy (msgOf error)) = true
  · rw [if_pos h, if_pos h]
    have hne : (toStr (codeOf error) ++ ": " ++ toStr (msgOf error)) ≠ "" := by
      intro hc
      have hlen := congrArg String.length hc
      simp [String.length_append] at hlen
      exact absurd hlen.1.2 (by decide)
    rw [if_pos (show truthy (JSVal.str
      (toStr (codeOf error) ++ ": " ++ toStr (msgOf error))) = true from bne_iff_ne.mpr hne)]
  · rw [if_neg h, if_neg h]
    rfl

/-- C4: for every transport failure, the promise rejects with the original
error value unchanged and `showAlert` is invoked exactly once, with `''`,
the message described by the spec, and `'error'`; and for every
application-level error (`status: "error"`), the promise likewise rejects
with the thrown error after exactly one such `showAlert` invocation. -/
theorem c4_alert_once_and_rereject (error response : JSVal)
    (herr : statusOf response = JSVal.str "error") :
    uploadSettle (SendOutcome.fail error) =
      (PromiseOutcome.rejected error,
        [(JSVal.str "", claimAlertMessage error, JSVal.str "error")]) ∧
    (uploadSettle (SendOutcome.fail error)).2.length = 1 ∧
    (∃ e : JSVal, uploadSettle (SendOutcome.ok response) =
      (PromiseOutcome.rejected e,
        [(JSVal.str "", claimAlertMessage e, JSVal.str "error")]) ∧
      (uploadSettle (SendOutcome.ok response)).2.length = 1) := by
  have halert : ∀ e : JSVal,
      alertCall e = (JSVal.str "", claimAlertMessage e, JSVal.str "error") := fun e => by
    rw [alertCall, alertMessage_eq_claim]
  have hdisp : uploadDispatch response = UploadOutcome.thrown
      (toStr (jsGet response "msg") ++ " " ++ toStr (jsGet response "hint")) := by
    rw [uploadDispatch, herr]
    rfl
  refine ⟨?_, rfl, ?_⟩
  · simp [uploadSettle, halert]
  · refine ⟨mkError (toStr (jsGet response "msg") ++ " " ++ toStr (jsGet response "hint")),
      ?_, ?_⟩
    · simp [uploadSettle, hdisp, halert]
    · simp [uploadSettle, hdisp]

/-- Witness for C4: an axios-style error carrying `code: "E42"` and a list
`msg` alerts once with `E42: bad, worse` and re-rejects the error itself;
a server `status: "error"` response also alerts exactly once. -/
theorem c4_witness :
    uploadSettle (SendOutcome.fail (JSVal.obj
        [("response", JSVal.obj [("data", JSVal.obj
          [("code", JSVal.str "E42"),
           ("msg", JSVal.arr [JSVal.str "bad", JSVal.str "worse"])])]),
         ("message", JSVal.str "Request failed")])) =
      (PromiseOutcome.rejected (JSVal.obj
        [("response", JSVal.obj [("data", JSVal.obj
          [("code", JSVal.str "E42"),
           ("msg", JSVal.arr [JSVal.str "bad", JSVal.str "worse"])])]),
         ("message", JSVal.str "Request failed")]),
       [(JSVal.str "", JSVal.str "E42: bad, worse", JSVal.str "error")]) := by
  have h := c4_alert_once_and_rereject (JSVal.obj
      [("response", JSVal.obj [("data", JSVal.obj
        [("code", JSVal.str "E42"),
         ("msg", JSVal.arr [JSVal.str "bad", JSVal.str "worse"])])]),
       ("message", JSVal.str "Request failed")])
    (JSVal.obj [("status", JSVal.str "error")]) rfl
  rw [h.1]
  rfl

/-! ## The frame claim (C8) -/

/-- C8: the `uploadParams` handling of `uploadFiles` leaves the caller's
configuration object untouched: the directory override is merged into a
freshly allocated object (at a different address), the query string is
computed from that fresh object, and the object at the caller's address is
unchanged. -/
theorem c8_upload_does_not_mutate_config (σ : Store) (a : Nat) (dir : JSVal)
    (ha : a < List.length σ) :
    (uploadParamsStep σ a dir).1.read a = σ.read a ∧
    (uploadParamsStep σ a dir).2.1 ≠ a ∧
    (uploadParamsStep σ a dir).2.2 = paramsStr (mergedUploadParams (σ.read a) dir) := by
  refine ⟨?_, ?_, rfl⟩
  · show Store.read (List.append σ [mergedUploadParams (σ.read a) dir]) a = σ.read a
    simp [Store.read, List.getD, List.getElem?_append, ha]
  · exact ne_of_gt ha

/-- Witness for C8: a one-object store holding `{tag: "x"}` at address 0 is
unchanged at that address by the merge step. -/
theorem c8_witness :
    (uploadParamsStep [[("tag", JSVal.str "x")]] 0 JSVal.undef).1.read 0 =
      [("tag", JSVal.str "x")] ∧
    (uploadParamsStep [[("tag", JSVal.str "x")]] 0 JSVal.undef).2.1 ≠ 0 := by
  have h := c8_upload_does_not_mutate_config [[("tag", JSVal.str "x")]] 0 JSVal.undef
    (by decide)
  exact ⟨by rw [h.1]; rfl, h.2.1⟩

end Filerobot
